import Mathlib

/-!
Verification development for the failure-report pipeline of the
`mocha-better-spec-reporter` package (`src/index.js`).

Strings are embedded as `List Char`; JavaScript string operations
(`trim`, `substr`, `indexOf`, `split`, `includes`, `startsWith`) are
modelled as executable functions on `List Char` with JavaScript
semantics (e.g. `substr` with a negative start counts from the end,
`indexOf` returns -1 when the pattern is absent).  Stateful code is
modelled by explicit state passing; a thrown JavaScript exception is
modelled by an `Option (List Char)` error component (`some msg` is a
throw).  ANSI colouring (`color(...)`) is display styling declared out
of scope by the specification and is modelled as the identity on the
wrapped text.
-/

namespace MochaReporter

/-- Convert a string literal to the `List Char` representation used throughout. -/
def s2l (s : String) : List Char := s.toList

/-- JavaScript whitespace as far as `String.prototype.trim` is concerned
(space, tab, newline, carriage return, vertical tab, form feed). -/
def isJsWs (c : Char) : Bool :=
  c = ' ' || c = '\t' || c = '\n' || c = '\r' || c = '\x0b' || c = '\x0c'

/-- Model of JavaScript `String.prototype.trim`. -/
def trimL (s : List Char) : List Char :=
  ((s.dropWhile isJsWs).reverse.dropWhile isJsWs).reverse

/-- `startsWithL s p` is true when `p` is a leading run of `s`
(JavaScript `s.substr(0, p.length) === p`). -/
def startsWithL : List Char → List Char → Bool
  | _, [] => true
  | [], _ :: _ => false
  | c :: cs, p :: ps => c = p && startsWithL cs ps

/-- First index at which `pat` occurs in `s`, if any. -/
def indexOfAuxL (pat : List Char) : List Char → Option Nat
  | [] => if startsWithL [] pat then some 0 else none
  | c :: rest =>
    if startsWithL (c :: rest) pat then some 0
    else (indexOfAuxL pat rest).map (· + 1)

/-- Model of JavaScript `String.prototype.indexOf`: the first index of
`pat` in `s`, or `-1` when `pat` does not occur. -/
def jsIndexOf (s pat : List Char) : Int :=
  match indexOfAuxL pat s with
  | some n => (n : Int)
  | none => -1

/-- Model of JavaScript `String.prototype.includes`. -/
def includesL (s pat : List Char) : Bool :=
  (indexOfAuxL pat s).isSome

/-- Model of one-argument JavaScript `String.prototype.substr(start)`:
a negative start counts from the end of the string (clamped at 0). -/
def jsSubstrFrom (s : List Char) (start : Int) : List Char :=
  if start < 0 then s.drop (((s.length : Int) + start).toNat)
  else s.drop start.toNat

/-- Model of JavaScript `s.split(String.fromCharCode(10))`: split on the
newline character; always returns at least one (possibly empty) segment. -/
def splitOnNl : List Char → List (List Char)
  | [] => [[]]
  | c :: rest =>
    let r := splitOnNl rest
    if c = '\n' then [] :: r
    else
      match r with
      | [] => [[c]]
      | h :: t => (c :: h) :: t

/-- Decimal rendering of an `Int` key, as JavaScript string coercion gives. -/
def intToChars (i : Int) : List Char := (toString i).toList

/-! ## Source-map marker scan (`linesContainSourceMap`, src/index.js lines 453-465) -/

/-- The marker literal `sourceMapComment` of src/index.js line 453. -/
def sourceMapComment : List Char := s2l "//# sourceMappingURL="

/-- The `while(l--)` loop body of `linesContainSourceMap`, acting on the
reversed line list: trim the line; skip it when empty; when it begins with
the marker return the rest of the line; otherwise keep scanning. -/
def linesContainSourceMapRev : List (List Char) → Option (List Char)
  | [] => none
  | l :: rest =>
    let t := trimL l
    if t.isEmpty then linesContainSourceMapRev rest
    else if startsWithL t sourceMapComment then
      some (t.drop sourceMapComment.length)
    else linesContainSourceMapRev rest

/-- `linesContainSourceMap` (src/index.js lines 455-465): scan the file
lines from the last towards the first. -/
def linesContainSourceMap (lines : List (List Char)) : Option (List Char) :=
  linesContainSourceMapRev lines.reverse

/-- The marker detection as the specification words it: examine only the
last non-blank line of the file and return the marker value exactly when
that line carries the marker.  (Definition written from the spec, for
comparison with `linesContainSourceMap` above.) -/
def linesContainSourceMapSpec (lines : List (List Char)) : Option (List Char) :=
  match lines.reverse.find? (fun l => !(trimL l).isEmpty) with
  | none => none
  | some l =>
    let t := trimL l
    if startsWithL t sourceMapComment then some (t.drop sourceMapComment.length)
    else none

/-! ## Diff rendering (`writeDiff`, src/index.js lines 578-597) -/

/-- Single-pass global replacement of the character `c` by `rep`,
as one JavaScript `String.prototype.replace(/c/g, rep)` pass. -/
def replAll (c : Char) (rep : List Char) : List Char → List Char
  | [] => []
  | x :: xs => (if x = c then rep else [x]) ++ replAll c rep xs

/-- `escapeInvisibles` (src/index.js lines 608-613): three sequential
global replaces, tab then carriage return then line feed. -/
def escapeInvisibles (line : List Char) : List Char :=
  replAll '\n' (s2l "<LF>\n")
    (replAll '\r' (s2l "<CR>")
      (replAll '\t' (s2l "<TAB>") line))

/-- The per-line classification loop of `writeDiff` (src/index.js lines
579-596): the raw unified patch, already split on newlines, loses its
first 4 lines; an empty line is skipped; `begining` is the first character
of the unescaped line; when `escape` is set invisibles are escaped; only
lines whose first character is one of `+`, `-`, space are emitted.
`diff.createPatch` is an external library, so the patch line list is taken
as an arbitrary input; `color(...)` styling is the identity here. -/
def writeDiffLines (patchLines : List (List Char)) (escape : Bool) : List (List Char) :=
  (patchLines.drop 4).filterMap (fun line =>
    if line.isEmpty then none
    else
      let b := line.take 1
      let line2 := if escape then escapeInvisibles line else line
      if b = ['+'] || b = ['-'] || b = [' '] then some line2 else none)

/-! ## Stack text versus parsed frames (src/index.js lines 386-391, 423-426) -/

/-- The dashed async-boundary line test of the stack-trace library,
regex caret, backslash-s star, dash at-least-4, dollar. -/
def isDashLine (line : List Char) : Bool :=
  let t := line.dropWhile isJsWs
  decide (t.length ≥ 4) && t.all (· = '-')

/-- Model of the `stack-trace` npm library's per-line frame regex: a line
yields a call site exactly when it contains the text `at ` (the regex is
unanchored and its final alternative accepts almost anything after
`at `), or is a dashed async-boundary line. -/
def parsesAsFrame (line : List Char) : Bool :=
  includesL line (s2l "at ") || isDashLine line

/-- Model of `stacktrace.parse(err)` (the `stack-trace` npm library):
split the raw stack on newlines, drop the first line, keep one call site
per line matching the frame regex; only the frame count matters here. -/
def stacktraceParseCount (stack : List Char) : Nat :=
  (((splitOnNl stack).drop 1).filter parsesAsFrame).length

/-- The raw stack-text side of `writeFailures` (src/index.js lines
388-391 and 423-426): find the message inside the stack string, drop
everything up to the end of the message, split on newlines, trim each
line, and keep the non-empty lines. -/
def rawStackLines (stack message : List Char) : List (List Char) :=
  let idx := jsIndexOf stack message
  let rest := jsSubstrFrom stack (idx + (message.length : Int))
  ((splitOnNl rest).map trimL).filter (fun l => !l.isEmpty)

/-! ## The per-frame stack walk of `writeFailures` (src/index.js lines 421-444) -/

/-- A structured stack frame as the stack-trace library's call sites
expose it: `getFileName()` is null for native/anonymous frames. -/
structure Frame where
  fileName : Option (List Char)
  lineNumber : Option Nat
  columnNumber : Option Nat
deriving DecidableEq

/-- Per-frame trace record of the walk: the `isFilesBeforeTests` flag as
it stood when the frame was examined, whether the frame's file is a
member of the run's file list, and whether `writeStackLine` was invoked
for it. -/
structure StepInfo where
  beforePhase : Bool
  inProject : Bool
  rendered : Bool
deriving DecidableEq

/-- The `forEach` body of the stack walk (src/index.js lines 427-444),
recursing over the non-empty trimmed stack lines with the running index
`i` into `parsedStack` and the two mutable flags.  Faithful failure
modes: `parsedStack[i]` being undefined throws at the `getFileName()`
call, and, when `hideNodeModulesStack` is set, a null file name throws
inside `fileName.includes('node_modules')`; a throw ends the walk with
the output produced so far.  The walk's output records the raw line text
of every frame for which `writeStackLine` is invoked (that call's own
rendering is modelled separately); `minimatch` on the `stackExclude`
glob is an external library, modelled as a predicate. -/
def frameWalkGo (hideNM : Bool) (excl : Option (List Char → Bool))
    (files : List (List Char)) (parsedStack : List Frame) :
    Nat → Bool → Bool → List (List Char) →
    List (List Char) × List StepInfo × Option (List Char)
  | _, _, _, [] => ([], [], none)
  | i, bf, tf, line :: rest =>
    match parsedStack[i]? with
    | none =>
      ([], [], some (s2l "TypeError: Cannot read property getFileName of undefined"))
    | some f =>
      if hideNM then
        match f.fileName with
        | none =>
          ([], [], some (s2l "TypeError: Cannot read property includes of null"))
        | some fn =>
          if includesL fn (s2l "node_modules") then
            let r := frameWalkGo hideNM excl files parsedStack (i + 1) bf tf rest
            (r.1, ⟨bf, files.contains fn, false⟩ :: r.2.1, r.2.2)
          else
            let proj := files.contains fn
            let bf2 := if proj then false else bf
            let tf2 := proj
            let rendered := (tf2 || bf2) &&
              (match excl with
               | none => true
               | some m => !(m fn))
            let r := frameWalkGo hideNM excl files parsedStack (i + 1) bf2 tf2 rest
            ((if rendered then line :: r.1 else r.1), ⟨bf, proj, rendered⟩ :: r.2.1, r.2.2)
      else
        let r := frameWalkGo hideNM excl files parsedStack (i + 1) bf tf rest
        (r.1,
          ⟨bf, (match f.fileName with | some fn => files.contains fn | none => false), false⟩ :: r.2.1,
          r.2.2)

/-- The stack walk of one failure: both flags start true, the index
starts at 0, and only the non-empty lines are iterated (src/index.js
lines 421-427). -/
def frameWalk (hideNM : Bool) (excl : Option (List Char → Bool))
    (files : List (List Char)) (parsedStack : List Frame)
    (stackLines : List (List Char)) :
    List (List Char) × List StepInfo × Option (List Char) :=
  frameWalkGo hideNM excl files parsedStack 0 true true
    (stackLines.filter (fun l => !l.isEmpty))

/-! ## Snippet rendering (`writeFilePosition`, src/index.js lines 546-576,
and `_writeStackFilePosition`, lines 483-492) -/

/-- A stack position: `line` is 1-based; `column` is absent when the
JavaScript column was falsy (missing or 0, cf. line 498). -/
structure FilePos where
  line : Nat
  column : Option Nat
deriving DecidableEq

/-- JavaScript array indexing `lines[i]`: undefined (`none`) outside
`0 ≤ i < length`. -/
def lineAtI (ls : List (List Char)) (i : Int) : Option (List Char) :=
  if 0 ≤ i then ls.get? i.toNat else none

/-- The three keys of the `ln` object built by `_writeStackFilePosition`
(src/index.js lines 484-487): `pos.line - 2`, `pos.line - 1`, `pos.line`. -/
def lnKeys (pos : FilePos) : List Int :=
  [(pos.line : Int) - 2, (pos.line : Int) - 1, (pos.line : Int)]

/-- The `ln` object of `_writeStackFilePosition` as an ordered key/value
list.  (JavaScript enumerates a negative key after the array-index keys,
but a negative key always holds undefined, producing no row, so the
ascending order used here renders the same rows.) -/
def lnObject (ls : List (List Char)) (pos : FilePos) :
    List (Int × Option (List Char)) :=
  (lnKeys pos).map (fun k => (k, lineAtI ls k))

/-- JavaScript truthiness of a (possibly undefined) line value:
undefined and the empty string are falsy. -/
def truthyLine : Option (List Char) → Bool
  | none => false
  | some l => !l.isEmpty

/-- Modelled from the spec: the `pad` helper (`require('./pad')`, not
under src/) right-aligns a string to the given width by prefixing
spaces. -/
def padL (s : List Char) (w : Nat) : List Char :=
  List.replicate (w - s.length) ' ' ++ s

/-- The column marking of the target row (src/index.js lines 565-569),
guarded by the truthiness test `if(filePos.column)` (line 565, so a 0
column marks nothing): `substr(0, column - 1)`, then
`color('error line pos', line[column - 1])`, then `substr(column)`.
With colour as the identity this reconstructs the line when the 1-based
column lies within it; past the end of the line, `line[column - 1]` is
undefined and the concatenation stringifies it, splicing the text
`undefined` into the rendered row. -/
def markColumn (line : List Char) : Option Nat → List Char
  | none => line
  | some c =>
    if c = 0 then line
    else if c - 1 < line.length then
      line.take (c - 1) ++ (line.drop (c - 1)).take 1 ++ line.drop c
    else line.take (c - 1) ++ s2l "undefined" ++ line.drop c

/-- One rendered snippet row (src/index.js lines 570-572):
the padded 1-based line number, a separator, and the row content,
column-marked when the row is the target row. -/
def renderRow (pos : FilePos) (longest : Nat) (k : Int) (l : List Char) : List Char :=
  let content := if k + 1 = (pos.line : Int) then markColumn l pos.column else l
  padL (intToChars (k + 1)) longest ++ s2l " | " ++ content

/-- `writeFilePosition` (src/index.js lines 546-576): compute the width
of the longest line number among the truthy rows by a seedless `reduce`
(`none` models the TypeError that an empty `reduce` throws), then emit
one row per truthy entry of the `ln` object, skipping falsy rows. -/
def writeFilePosition (lnObj : List (Int × Option (List Char))) (pos : FilePos) :
    Option (List (List Char)) :=
  match (lnObj.filter (fun kv => truthyLine kv.2)).map
      (fun kv => (intToChars (kv.1 + 1)).length) with
  | [] => none
  | w :: ws =>
    let longest := ws.foldl max w
    some (lnObj.filterMap (fun kv =>
      match kv.2 with
      | none => none
      | some l => if l.isEmpty then none else some (renderRow pos longest kv.1 l)))

/-- `_writeStackFilePosition` (src/index.js lines 483-492): a blank
separator line, the `writeFilePosition` rows, a closing blank line.  The
first blank line is already written when `writeFilePosition` throws. -/
def stackFilePositionRun (ls : List (List Char)) (pos : FilePos) :
    List (List Char) × Option (List Char) :=
  match writeFilePosition (lnObject ls pos) pos with
  | some rows => ([[]] ++ rows ++ [[]], none)
  | none => ([[]], some (s2l "TypeError: Reduce of empty array with no initial value"))

/-- The snippet window as the original claim words it: the rows of the
target line and its two neighbours that exist in the file (only absent
rows omitted), each content kept even when empty, numbered with the
width of the longest line number among those rows.  (Definition written
from the spec, for comparison with `writeFilePosition`.) -/
def snippetClaim (ls : List (List Char)) (pos : FilePos) : List (List Char) :=
  let kept := (lnKeys pos).filterMap (fun k => (lineAtI ls k).map (fun l => (k, l)))
  let longest := (kept.map (fun kv => (intToChars (kv.1 + 1)).length)).foldl max 0
  kept.map (fun kv => renderRow pos longest kv.1 kv.2)

/-- The snippet window as the amended claim words it: the rows of the
target line and its two neighbours that exist in the file and whose
content is non-empty (an absent or empty-content row is omitted),
numbered with the width of the longest line number among the kept rows;
`none` when no row is kept (the renderer throws there). -/
def snippetAmended (ls : List (List Char)) (pos : FilePos) :
    Option (List (List Char)) :=
  let kept := (lnKeys pos).filterMap (fun k =>
    match lineAtI ls k with
    | none => none
    | some l => if l.isEmpty then none else some (k, l))
  match kept with
  | [] => none
  | _ =>
    let longest := (kept.map (fun kv => (intToChars (kv.1 + 1)).length)).foldl max 0
    some (kept.map (fun kv => renderRow pos longest kv.1 kv.2))

/-- The kept rows of a snippet window: key/content pairs whose value is
neither undefined nor empty (the JavaScript-truthy entries of the `ln`
object). -/
def keptRows (lnObj : List (Int × Option (List Char))) : List (Int × List Char) :=
  lnObj.filterMap (fun kv =>
    match kv.2 with
    | none => none
    | some l => if l.isEmpty then none else some (kv.1, l))

/-! ## `writeStackLine` with its two caches (src/index.js lines 494-544) -/

/-- Model of a parsed `SourceMapConsumer` (the `source-map` npm library):
`originalPositionFor` yields the original source name, line and column
(`none` when the map has no source for the position — JavaScript
`posSM.source` null), and `sourceContentFor` yields the embedded content
of an original source, when present. -/
structure SMConsumer where
  origPos : Nat → Option Nat → Option (List Char × Nat × Option Nat)
  sourceContent : List Char → Option (List Char)

/-- Reporter options relevant to `writeStackLine`. -/
structure ROpts where
  showJavascriptFiles : Bool
  showSourceMapFiles : Bool

/-- The synchronous external world of `writeStackLine`:
`fsRead` models `fs.readFileSync` (`none` is a thrown read error), and
`smParse` models `parseInlineSourceMap(sm) || parseExternalSourceMap(fileName, sm)`
(src/index.js lines 467-481; `none` is the `null` those return on
failure). -/
structure REnv where
  fsRead : List Char → Option (List Char)
  smParse : List Char → List Char → Option SMConsumer

/-- The reporter's per-run mutable state touched by `writeStackLine`:
`filesCache` (split file content by path; a failed read stores nothing),
`sourceMapCache` (a stored `none` is the JavaScript `null` marker), and
two effect counters: disk reads attempted and source-map parse attempts. -/
structure RState where
  filesCache : List (List Char × List (List Char))
  sourceMapCache : List (List Char × Option SMConsumer)
  reads : Nat
  parses : Nat

/-- Association-list lookup with `List Char` keys (a JavaScript object
property read; `none` is undefined). -/
def lookupA {α : Type} : List (List Char × α) → List Char → Option α
  | [], _ => none
  | (k, v) :: rest, key => if k = key then some v else lookupA rest key

/-- The header line `at source:line(:column)` written before a nested
original-source snippet (src/index.js line 532); a falsy (absent or 0)
column is omitted. -/
def smHeader (src : List Char) (line : Nat) (col : Option Nat) : List Char :=
  s2l "at " ++ src ++ s2l ":" ++ intToChars (line : Int) ++
    (match col with
     | some c => if c = 0 then [] else s2l ":" ++ intToChars (c : Int)
     | none => [])

/-- Normalise a JavaScript-falsy column: 0 behaves as absent
(`if(columnNumber) pos.column = columnNumber`, src/index.js line 498,
and the truthiness tests on `posSM.column` at lines 532-534). -/
def normCol : Option Nat → Option Nat
  | some c => if c = 0 then none else some c
  | none => none

/-- `writeStackLine` (src/index.js lines 494-544).  Returns the new
state, the output lines, and `some msg` when a snippet render threw.
Steps, in source order: write the raw stack line; stop unless a line
number is known; populate `filesCache` on a miss (a failed read is
swallowed and caches nothing); stop when the file content is still
absent; detect the source-map marker; render the file's own snippet when
`showJavascriptFiles` is set or the marker value is falsy (absent, or
the empty value of a bare marker line, `!sm`); then, under
`showSourceMapFiles` with a truthy marker value (`sm && ...`): consult
`sourceMapCache` — the parse
is skipped only when the cached value is the `null` marker (`smc !== null`),
so both a cache miss and a previously parsed consumer re-parse — store
the parse result, and, when a consumer is at hand and it resolves the
position to a source with embedded content, write the original-position
header and the nested snippet (with the original column shifted +1). -/
def writeStackLine (o : ROpts) (env : REnv) (st : RState)
    (line fileName : List Char) (lineNumber columnNumber : Option Nat) :
    RState × List (List Char) × Option (List Char) :=
  let out0 := [line]
  match lineNumber with
  | none => (st, out0, none)
  | some ln =>
    let pos : FilePos := ⟨ln, normCol columnNumber⟩
    let st1 :=
      match lookupA st.filesCache fileName with
      | some _ => st
      | none =>
        match env.fsRead fileName with
        | some content =>
          { st with
            filesCache := (fileName, splitOnNl content) :: st.filesCache,
            reads := st.reads + 1 }
        | none => { st with reads := st.reads + 1 }
    match lookupA st1.filesCache fileName with
    | none => (st1, out0, none)
    | some ls =>
      let sm := linesContainSourceMap ls
      let smTruthy := match sm with | some v => !v.isEmpty | none => false
      let (snipOut, snipErr) :=
        if o.showJavascriptFiles || !smTruthy then stackFilePositionRun ls pos
        else ([], none)
      match snipErr with
      | some e => (st1, out0 ++ snipOut, some e)
      | none =>
        match sm with
        | none => (st1, out0 ++ snipOut, none)
        | some smv =>
          if !smv.isEmpty && o.showSourceMapFiles then
            let (st2, smc) :=
              match lookupA st1.sourceMapCache fileName with
              | some none => (st1, none)
              | _ =>
                let r := env.smParse fileName smv
                ({ st1 with
                    sourceMapCache := (fileName, r) :: st1.sourceMapCache,
                    parses := st1.parses + 1 }, r)
            match smc with
            | none => (st2, out0 ++ snipOut, none)
            | some consumer =>
              match consumer.origPos ln pos.column with
              | none => (st2, out0 ++ snipOut, none)
              | some (src, oline, ocol) =>
                match consumer.sourceContent src with
                | none => (st2, out0 ++ snipOut, none)
                | some fc =>
                  let ocolN := normCol ocol
                  let hdr := smHeader src oline ocolN
                  let posSM : FilePos := ⟨oline, ocolN.map (· + 1)⟩
                  let (nested, nerr) := stackFilePositionRun (splitOnNl fc) posSM
                  (st2, out0 ++ snipOut ++ [hdr] ++ nested, nerr)
          else (st1, out0 ++ snipOut, none)

/-! ## The diff decision of `writeFailures` (src/index.js lines 402-417) -/

/-- A JavaScript runtime value as far as the diff decision observes it. -/
inductive JsVal where
  | vstr : List Char → JsVal
  | vnum : Int → JsVal
  | vbool : Bool → JsVal
  | vundef : JsVal
  | vobj : List (List Char) → JsVal

/-- `typeof v === 'string'`. -/
def typeofIsString : JsVal → Bool
  | .vstr _ => true
  | _ => false

/-- The actual/expected handling of `writeFailures` (src/index.js lines
402-417): nothing for a timed-out test; `escape` starts true; when
`sameType(actual, expected)` holds and `typeof actual` is not string,
both values are replaced by `stringify(...)` of themselves and `escape`
is cleared; `writeDiff` is then invoked exactly when both (possibly
replaced) values are strings and differ.  `sameType` (should-type) and
`stringify` (should-format) are external libraries, taken as parameters;
the result is the `(actual, expected, escape)` triple handed to
`writeDiff`, or `none` when no diff is rendered. -/
def diffDecision (sameType : JsVal → JsVal → Bool) (stringify : JsVal → List Char)
    (timedOut : Bool) (actual expected : JsVal) :
    Option (List Char × List Char × Bool) :=
  if timedOut then none
  else
    let typeAIsStr := typeofIsString actual
    let (a, e, escape) :=
      if sameType actual expected && !typeAIsStr then
        (JsVal.vstr (stringify actual), JsVal.vstr (stringify expected), false)
      else (actual, expected, true)
    match a, e with
    | .vstr s, .vstr t => if s = t then none else some (s, t, escape)
    | _, _ => none

/-! ## Concrete inputs used by the claim theorems and witnesses -/

/-- The file-filter set of the walk scenarios. -/
def filesS : List (List Char) := [s2l "project/a.js", s2l "project/c.js"]

/-- Frames of the scenario `[project/a.js:10, node_modules/x/b.js:5, project/c.js:3]`. -/
def framesS : List Frame :=
  [⟨some (s2l "project/a.js"), some 10, some 1⟩,
   ⟨some (s2l "node_modules/x/b.js"), some 5, some 1⟩,
   ⟨some (s2l "project/c.js"), some 3, some 1⟩]

/-- Raw stack lines of the scenario stack. -/
def linesS : List (List Char) :=
  [s2l "at project/a.js:10:1", s2l "at node_modules/x/b.js:5:1", s2l "at project/c.js:3:1"]

/-- Frames of the stack `[project/a.js:10, other/lib.js:5, project/c.js:3]`
whose middle frame is neither a project file nor inside node_modules. -/
def framesC : List Frame :=
  [⟨some (s2l "project/a.js"), some 10, some 1⟩,
   ⟨some (s2l "other/lib.js"), some 5, some 1⟩,
   ⟨some (s2l "project/c.js"), some 3, some 1⟩]

/-- Raw stack lines of the `other/lib.js` stack. -/
def linesC : List (List Char) :=
  [s2l "at project/a.js:10:1", s2l "at other/lib.js:5:1", s2l "at project/c.js:3:1"]

/-- Frames whose middle frame is a native frame: `getFileName()` is null. -/
def framesN : List Frame :=
  [⟨some (s2l "project/a.js"), some 10, some 1⟩,
   ⟨none, none, none⟩,
   ⟨some (s2l "project/c.js"), some 3, some 1⟩]

/-- A source-map consumer that resolves no position. -/
def smUnresolved : SMConsumer := ⟨fun _ _ => none, fun _ => none⟩

/-- World for the source-map cache runs: `a.js` is readable and carries an
external source-map marker, and every parse attempt succeeds. -/
def envSM : REnv :=
  ⟨fun f => if f = s2l "a.js" then some (s2l "x\n//# sourceMappingURL=m.map") else none,
   fun _ _ => some smUnresolved⟩

/-- Options `show-file-content=sm`: original-source snippets only. -/
def optsSM : ROpts := ⟨false, true⟩

/-- The reporter state at the start of a run: both caches empty. -/
def st0 : RState := ⟨[], [], 0, 0⟩

/-- First `writeStackLine` call for `a.js`. -/
def runSM1 : RState × List (List Char) × Option (List Char) :=
  writeStackLine optsSM envSM st0 (s2l "at a.js:1:1") (s2l "a.js") (some 1) none

/-- Second `writeStackLine` call for `a.js`, in the state the first left. -/
def runSM2 : RState × List (List Char) × Option (List Char) :=
  writeStackLine optsSM envSM runSM1.1 (s2l "at a.js:1:1") (s2l "a.js") (some 1) none

/-- World in which every file read fails. -/
def envUnreadable : REnv := ⟨fun _ => none, fun _ _ => none⟩

/-- First `writeStackLine` call for the unreadable `b.js`. -/
def runUR1 : RState × List (List Char) × Option (List Char) :=
  writeStackLine optsSM envUnreadable st0 (s2l "at b.js:1:1") (s2l "b.js") (some 1) none

/-- Second `writeStackLine` call for the unreadable `b.js`. -/
def runUR2 : RState × List (List Char) × Option (List Char) :=
  writeStackLine optsSM envUnreadable runUR1.1 (s2l "at b.js:1:1") (s2l "b.js") (some 1) none

/-- A structural-equality oracle standing in for `should-type`. -/
def sameTypeNum : JsVal → JsVal → Bool
  | .vnum _, .vnum _ => true
  | .vstr _, .vstr _ => true
  | _, _ => false

/-- A canonical rendering standing in for `should-format`. -/
def stringifyNum : JsVal → List Char
  | .vnum n => intToChars n
  | .vstr s => s
  | _ => s2l "value"

/-- A four-line unified-patch header followed by one body of each kind. -/
def patchW : List (List Char) :=
  [s2l "Index: str", s2l "====", s2l "--- str", s2l "+++ str",
   s2l "@@ -1,2 +1,2 @@", s2l " foo", s2l "-bar", s2l "+baz", s2l "\\ No newline at end of file"]

/-! ## Helper lemmas -/

/-- With `hideNodeModulesStack` false the walk body never reaches the
`writeStackLine` call, whatever the frames hold. -/
theorem frameWalkGo_hideNM_false_out_nil (excl : Option (List Char → Bool))
    (files : List (List Char)) (ps : List Frame) :
    ∀ (rest : List (List Char)) (i : Nat) (bf tf : Bool),
      (frameWalkGo false excl files ps i bf tf rest).1 = [] := by
  intro rest
  induction rest with
  | nil => intro i bf tf; rfl
  | cons line rest ih =>
    intro i bf tf
    simp only [frameWalkGo]
    cases ps[i]? with
    | none => rfl
    | some f => simp only [Bool.false_eq_true, if_false, ih]

/-- Per-frame suppression: a frame examined while the
`isFilesBeforeTests` flag is already down and whose file is not in the
run's file list never triggers `writeStackLine`. -/
theorem frameWalkGo_suppressed (hideNM : Bool) (excl : Option (List Char → Bool))
    (files : List (List Char)) (ps : List Frame) :
    ∀ (rest : List (List Char)) (i : Nat) (bf tf : Bool) (s : StepInfo),
      s ∈ (frameWalkGo hideNM excl files ps i bf tf rest).2.1 →
      s.beforePhase = false → s.inProject = false → s.rendered = false := by
  intro rest
  induction rest with
  | nil => intro i bf tf s hs; simp [frameWalkGo] at hs
  | cons line rest ih =>
    intro i bf tf s hs hbf hproj
    simp only [frameWalkGo] at hs
    cases hps : ps[i]? with
    | none => rw [hps] at hs; simp at hs
    | some f =>
      rw [hps] at hs
      simp only [] at hs
      by_cases hnm : hideNM
      · rw [if_pos hnm] at hs
        cases hfn : f.fileName with
        | none => rw [hfn] at hs; simp at hs
        | some fn =>
          rw [hfn] at hs
          simp only [] at hs
          by_cases hmod : includesL fn (s2l "node_modules") = true
          · rw [if_pos hmod] at hs
            simp only [List.mem_cons] at hs
            rcases hs with hs | hs
            · rw [hs]
            · exact ih (i + 1) bf tf s hs hbf hproj
          · rw [if_neg hmod] at hs
            simp only [List.mem_cons] at hs
            rcases hs with hs | hs
            · subst hs
              simp only at hbf hproj
              subst hbf
              simp only [hproj, Bool.false_eq_true, if_false, Bool.or_false,
                Bool.false_and]
            · exact ih (i + 1) _ _ s hs hbf hproj
      · rw [if_neg hnm] at hs
        simp only [List.mem_cons] at hs
        rcases hs with hs | hs
        · rw [hs]
        · exact ih (i + 1) bf tf s hs hbf hproj

/-! ## Claim theorems -/

/-- C1: the claim says every enrichment failure is local and
non-propagating; the code violates it.  A native frame whose
`getFileName()` is null makes `fileName.includes('node_modules')` throw,
ending the walk before the remaining project frame
(`project/c.js`, a member of the file set) produces any output; and a
frame whose three-line window holds no renderable line makes the
seedless `reduce` of `writeFilePosition` throw.  Both evaluations show
the thrown error and the truncated output. -/
theorem claim_C1_failure_propagates :
    frameWalk true none filesS framesN linesC =
      ([s2l "at project/a.js:10:1"], [⟨true, true, true⟩],
        some (s2l "TypeError: Cannot read property includes of null")) ∧
    stackFilePositionRun [s2l "a"] ⟨50, none⟩ =
      ([[]], some (s2l "TypeError: Reduce of empty array with no initial value")) := by
  constructor
  · decide
  · decide

/-- C2: the claim says a resolved-and-stored source map is never parsed
again for the same path; the code re-parses it.  After the first call
the cache holds the parsed consumer for `a.js` (one parse so far), yet
the second call for the same path parses again (`smc !== null` also
holds for a stored consumer), leaving two parse attempts. -/
theorem claim_C2_reparse_on_cached_map :
    runSM1.1.parses = 1 ∧
    (lookupA runSM1.1.sourceMapCache (s2l "a.js")).isSome = true ∧
    runSM2.1.parses = 2 := by
  exact ⟨rfl, rfl, rfl⟩

/-- C3 counterexample: the claim says the first failed read for a path
is remembered so that later calls perform no additional disk read; on
the unreadable `b.js` the second call performs a second read (two reads
total) and the file cache still has no entry for the path. -/
theorem claim_C3_counterexample :
    runUR1.1.reads = 1 ∧ runUR2.1.reads = 2 ∧
    lookupA runUR2.1.filesCache (s2l "b.js") = none := by
  exact ⟨rfl, rfl, rfl⟩

/-- C3 amended: an unreadable stack-target file is a soft failure that
degrades output to the raw stack-text line only and never propagates,
but the failure is not cached: the path stays absent from the file
cache, and every later call for the same path attempts the read again
(incrementing the read count each time). -/
theorem claim_C3_amended (o : ROpts) (env : REnv) (st : RState)
    (line fileName : List Char) (n : Nat) (col : Option Nat)
    (hread : env.fsRead fileName = none)
    (hmiss : lookupA st.filesCache fileName = none) :
    writeStackLine o env st line fileName (some n) col =
      ({ st with reads := st.reads + 1 }, [line], none) := by
  simp only [writeStackLine, hmiss, hread]

/-- C3 witness: the amended statement at the concrete unreadable run. -/
theorem claim_C3_witness :
    writeStackLine optsSM envUnreadable st0 (s2l "at b.js:1:1") (s2l "b.js") (some 1) none =
      ({ st0 with reads := st0.reads + 1 }, [s2l "at b.js:1:1"], none) :=
  claim_C3_amended optsSM envUnreadable st0 (s2l "at b.js:1:1") (s2l "b.js") 1 none rfl rfl

/-- C10: with `hideNodeModulesStack` false the whole per-frame rendering
body of `writeFailures` is skipped, so no stack-frame lines (neither raw
stack-text lines nor snippets, project frames included) are rendered:
the walk invokes `writeStackLine` for no frame at all. -/
theorem claim_C10_no_stack_output (excl : Option (List Char → Bool))
    (files : List (List Char)) (ps : List Frame) (stackLines : List (List Char)) :
    (frameWalk false excl files ps stackLines).1 = [] := by
  exact frameWalkGo_hideNM_false_out_nil excl files ps _ 0 true true

/-- C4 counterexample: on the stack
`[project/a.js:10, other/lib.js:5, project/c.js:3]` with the same file
set, frame 2 is neither a project file nor still in the before-phase
(its step records `beforePhase = false`, `inProject = false`), so the
claim requires every subsequent frame to be suppressed; yet frame 3 is
rendered (`rendered = true`, and its raw line is in the output). -/
theorem claim_C4_counterexample :
    frameWalk true none filesS framesC linesC =
      ([s2l "at project/a.js:10:1", s2l "at project/c.js:3:1"],
        [⟨true, true, true⟩, ⟨false, false, false⟩, ⟨false, true, true⟩], none) := by
  decide

/-- C4 amended: the scenario holds as claimed — on
`[project/a.js:10, node_modules/x/b.js:5, project/c.js:3]` with
`hideNodeModulesStack = true` the node_modules frame is dropped entirely
and frames 1 and 3 are rendered — and a frame that is neither a project
file nor still in the before-project-files phase itself contributes no
output; but suppression does not latch: a later frame whose file is
again in the file set is rendered. -/
theorem claim_C4_amended :
    (frameWalk true none filesS framesS linesS =
      ([s2l "at project/a.js:10:1", s2l "at project/c.js:3:1"],
        [⟨true, true, true⟩, ⟨false, false, false⟩, ⟨false, true, true⟩], none)) ∧
    (∀ (hideNM : Bool) (excl : Option (List Char → Bool)) (files : List (List Char))
        (ps : List Frame) (stackLines : List (List Char)) (s : StepInfo),
      s ∈ (frameWalk hideNM excl files ps stackLines).2.1 →
      s.beforePhase = false → s.inProject = false → s.rendered = false) := by
  refine ⟨by decide, ?_⟩
  intro hideNM excl files ps stackLines s hs hbf hproj
  exact frameWalkGo_suppressed hideNM excl files ps _ 0 true true s hs hbf hproj

/-- C4 witness: the suppression half applied to the concrete
`other/lib.js` walk, at its middle step. -/
theorem claim_C4_witness :
    (⟨false, false, false⟩ : StepInfo).rendered = false :=
  claim_C4_amended.2 true none filesS framesC linesC ⟨false, false, false⟩
    (by decide) rfl rfl

/-- C5 counterexample: in a file whose marker line is followed by code,
the last non-blank line (`x = 1`) does not carry the marker, so the
claim requires the scan to return absent; the code keeps scanning
backwards past it and returns the marker value of the earlier line.
`linesContainSourceMapSpec` is the claim's wording of the scan. -/
theorem claim_C5_counterexample :
    linesContainSourceMap [s2l "//# sourceMappingURL=foo.map", s2l "x = 1"] =
        some (s2l "foo.map") ∧
    linesContainSourceMapSpec [s2l "//# sourceMappingURL=foo.map", s2l "x = 1"] = none := by
  constructor
  · decide
  · decide

/-- A list starting with `p` passes the `startsWithL` test for `p`. -/
theorem startsWithL_append (p v : List Char) : startsWithL (p ++ v) p = true := by
  induction p with
  | nil => simp [startsWithL]
  | cons c cs ih => simp [startsWithL, ih]

/-- The backward scan returns the marker value of the first scanned line
that is non-blank, provided that line carries the marker. -/
theorem linesContainSourceMapRev_found :
    ∀ (rev : List (List Char)) (l v : List Char),
      rev.find? (fun x => !(trimL x).isEmpty) = some l →
      trimL l = sourceMapComment ++ v →
      linesContainSourceMapRev rev = some v := by
  intro rev
  induction rev with
  | nil => intro l v hf; simp at hf
  | cons x rest ih =>
    intro l v hf hm
    rw [List.find?_cons] at hf
    by_cases he : (trimL x).isEmpty = true
    · rw [he] at hf
      simp only [Bool.not_true] at hf
      simp only [linesContainSourceMapRev, he, if_true]
      exact ih l v hf hm
    · rw [Bool.not_eq_true] at he
      rw [he] at hf
      simp only [Bool.not_false, Option.some.injEq] at hf
      subst hf
      simp only [linesContainSourceMapRev, he, Bool.false_eq_true, if_false, hm]
      rw [if_neg, if_pos]
      · rw [List.drop_left]
      · exact startsWithL_append sourceMapComment v
      · simp only [List.isEmpty_eq_true, List.append_eq_nil]
        intro hco
        exact absurd hco.1 (by decide)

/-- The backward scan returns absent exactly when no line of the file
(trimmed) begins with the marker. -/
theorem linesContainSourceMapRev_none_iff :
    ∀ rev : List (List Char),
      linesContainSourceMapRev rev = none ↔
      ∀ l ∈ rev, startsWithL (trimL l) sourceMapComment = false := by
  intro rev
  induction rev with
  | nil => simp [linesContainSourceMapRev]
  | cons x rest ih =>
    by_cases he : (trimL x).isEmpty = true
    · simp only [linesContainSourceMapRev, he, if_true, List.mem_cons]
      rw [List.isEmpty_eq_true] at he
      constructor
      · intro h l hl
        rcases hl with hl | hl
        · subst hl; rw [he]; decide
        · exact (ih.mp h) l hl
      · intro h
        exact ih.mpr (fun l hl => h l (Or.inr hl))
    · by_cases hsw : startsWithL (trimL x) sourceMapComment = true
      · simp only [linesContainSourceMapRev, he, Bool.false_eq_true, if_false, hsw, if_true]
        constructor
        · intro h; exact absurd h (by simp)
        · intro h
          have := h x (List.mem_cons_self x rest)
          rw [hsw] at this
          exact absurd this (by decide)
      · simp only [linesContainSourceMapRev, he, Bool.false_eq_true, if_false, hsw]
        simp only [List.mem_cons]
        constructor
        · intro h l hl
          rcases hl with hl | hl
          · subst hl; exact Bool.not_eq_true _ ▸ (by simpa using hsw)
          · exact (ih.mp h) l hl
        · intro h
          exact ih.mpr (fun l hl => h l (Or.inr hl))

/-- C5 amended: the scan runs from the end of the file across all lines,
not only the last non-blank one.  When the first non-blank line from the
end carries the marker, its value is returned (the surviving positive
half of the claim); and the scan returns absent exactly when no line of
the file, after trimming, begins with the marker — so a marker line
buried under later code is still found, as the counterexample shows. -/
theorem claim_C5_amended :
    (∀ (lines : List (List Char)) (l v : List Char),
      lines.reverse.find? (fun x => !(trimL x).isEmpty) = some l →
      trimL l = sourceMapComment ++ v →
      linesContainSourceMap lines = some v) ∧
    (∀ lines : List (List Char),
      linesContainSourceMap lines = none ↔
      ∀ l ∈ lines, startsWithL (trimL l) sourceMapComment = false) := by
  constructor
  · intro lines l v hf hm
    exact linesContainSourceMapRev_found lines.reverse l v hf hm
  · intro lines
    rw [linesContainSourceMap, linesContainSourceMapRev_none_iff]
    constructor
    · intro h l hl
      exact h l (List.mem_reverse.mpr hl)
    · intro h l hl
      exact h l (List.mem_reverse.mp hl)

/-- C5 witness: the amended statement applied to a file whose last
non-blank line is an indented marker line followed only by blanks. -/
theorem claim_C5_witness :
    linesContainSourceMap
        [s2l "x", s2l "  //# sourceMappingURL=m.map", s2l "   "] =
      some (s2l "m.map") :=
  claim_C5_amended.1 [s2l "x", s2l "  //# sourceMappingURL=m.map", s2l "   "]
    (s2l "  //# sourceMappingURL=m.map") (s2l "m.map") (by decide) (by decide)

/-- C6 counterexample: for the error `new Error()` — empty message, stack
`Error` followed by one frame line — `indexOf('') = 0` strips nothing,
so the header line `Error` survives as a non-empty trimmed stack-text
line (2 text lines) while frame resolution drops the header and yields 1
frame: the counts differ, and indexing the frame list by text-line
position leaves the last line out of bounds. -/
theorem claim_C6_counterexample :
    ¬ (stacktraceParseCount (s2l "Error\n    at f (a.js:1:1)") =
        (rawStackLines (s2l "Error\n    at f (a.js:1:1)") []).length) := by
  decide

/-- C6 amended: the frame count equals the surviving text-line count
whenever the first occurrence of the message ends exactly at the end of
the stack's first line (so stripping `indexOf(message) + message.length`
characters leaves precisely the newline and the frame lines — this fails
e.g. for an empty message) and every line after the first parses as a
frame exactly when its trimmed form is non-empty. -/
theorem claim_C6_amended (stack message : List Char)
    (hsplit : splitOnNl (jsSubstrFrom stack (jsIndexOf stack message + (message.length : Int))) =
      [] :: (splitOnNl stack).drop 1)
    (hframes : ∀ l ∈ (splitOnNl stack).drop 1, parsesAsFrame l = !(trimL l).isEmpty) :
    stacktraceParseCount stack = (rawStackLines stack message).length := by
  rw [rawStackLines]
  rw [hsplit]
  rw [List.map_cons, List.filter_cons]
  have htr : trimL ([] : List Char) = [] := rfl
  rw [htr]
  simp only [List.isEmpty_nil, Bool.not_true, Bool.false_eq_true, if_false]
  rw [List.filter_map, List.length_map]
  rw [stacktraceParseCount]
  congr 1
  apply List.filter_congr
  intro l hl
  exact hframes l hl

/-- C6 witness: the amended statement at a one-line message found in the
stack header, with two ordinary frame lines. -/
theorem claim_C6_witness :
    stacktraceParseCount (s2l "Error: boom\n    at f (a.js:1:2)\n    at g (b.js:3:4)") =
      (rawStackLines (s2l "Error: boom\n    at f (a.js:1:2)\n    at g (b.js:3:4)")
        (s2l "boom")).length :=
  claim_C6_amended (s2l "Error: boom\n    at f (a.js:1:2)\n    at g (b.js:3:4)")
    (s2l "boom") (by decide) (by decide)

/-- A global character replacement leaves a non-matching head in place. -/
theorem replAll_cons_ne (c : Char) (rep : List Char) (x : Char) (xs : List Char)
    (h : ¬ x = c) : replAll c rep (x :: xs) = x :: replAll c rep xs := by
  simp [replAll, h]

/-- Escaping invisibles leaves a non-invisible head character in place. -/
theorem escapeInvisibles_cons (c : Char) (xs : List Char)
    (h1 : ¬ c = '\t') (h2 : ¬ c = '\r') (h3 : ¬ c = '\n') :
    ∃ ys, escapeInvisibles (c :: xs) = c :: ys := by
  rw [escapeInvisibles, replAll_cons_ne _ _ _ _ h1, replAll_cons_ne _ _ _ _ h2,
    replAll_cons_ne _ _ _ _ h3]
  exact ⟨_, rfl⟩

/-- C7: every diff line emitted by the classification loop of
`writeDiff` has a leading character that is exactly one of `+`, `-`,
space, and derives from a patch line past the first 4 (header) lines
with the same leading character — so no header line and no line with any
other leading marker (such as the no-newline marker) ever appears. -/
theorem claim_C7_diff_lines (patch : List (List Char)) (escape : Bool) (l : List Char)
    (hl : l ∈ writeDiffLines patch escape) :
    (l.take 1 = ['+'] ∨ l.take 1 = ['-'] ∨ l.take 1 = [' ']) ∧
    ∃ p ∈ patch.drop 4, p.take 1 = l.take 1 ∧
      l = (if escape then escapeInvisibles p else p) := by
  rw [writeDiffLines] at hl
  obtain ⟨p, hp, hfp⟩ := List.mem_filterMap.mp hl
  by_cases hpe : p.isEmpty = true
  · rw [if_pos hpe] at hfp
    exact absurd hfp (by simp)
  · rw [if_neg hpe] at hfp
    simp only [] at hfp
    by_cases hb : (p.take 1 = ['+'] ∨ p.take 1 = ['-'] ∨ p.take 1 = [' '])
    · rw [if_pos (by simpa [or_assoc] using hb)] at hfp
      rw [Option.some.injEq] at hfp
      have htake : l.take 1 = p.take 1 := by
        cases p with
        | nil => exact absurd rfl hpe
        | cons c rest =>
          have hct : (c :: rest).take 1 = [c] := rfl
          rw [hct] at hb
          have hc : c = '+' ∨ c = '-' ∨ c = ' ' := by
            rcases hb with hb | hb | hb <;>
              simp only [List.cons.injEq, and_true] at hb <;> tauto
          cases escape with
          | false => rw [← hfp]; rfl
          | true =>
            obtain ⟨ys, hys⟩ := escapeInvisibles_cons c rest
              (by rcases hc with hc | hc | hc <;> subst hc <;> decide)
              (by rcases hc with hc | hc | hc <;> subst hc <;> decide)
              (by rcases hc with hc | hc | hc <;> subst hc <;> decide)
            rw [← hfp]
            simp only [if_true, hys, hct]
            rfl
      constructor
      · rw [htake]; exact hb
      · exact ⟨p, hp, htake.symm, hfp.symm⟩
    · rw [if_neg (by simpa [or_assoc] using hb)] at hfp
      exact absurd hfp (by simp)

/-- C7 witness: the removed line of the concrete patch `patchW`. -/
theorem claim_C7_witness :
    ((s2l "-bar").take 1 = ['+'] ∨ (s2l "-bar").take 1 = ['-'] ∨
      (s2l "-bar").take 1 = [' ']) ∧
    ∃ p ∈ patchW.drop 4, p.take 1 = (s2l "-bar").take 1 ∧
      (s2l "-bar") = (if true then escapeInvisibles p else p) :=
  claim_C7_diff_lines patchW true (s2l "-bar") (by decide)

/-- The truthiness filter of `writeFilePosition` keeps exactly the kept
rows, with their content re-wrapped in `some`. -/
theorem filter_truthy_eq_keptRows (lnObj : List (Int × Option (List Char))) :
    lnObj.filter (fun kv => truthyLine kv.2) =
      (keptRows lnObj).map (fun kv => (kv.1, some kv.2)) := by
  induction lnObj with
  | nil => rfl
  | cons kv rest ih =>
    rcases kv with ⟨k, v⟩
    cases v with
    | none =>
      simp only [List.filter_cons, keptRows, List.filterMap_cons, truthyLine]
      simpa [keptRows] using ih
    | some l =>
      by_cases he : l.isEmpty = true
      · simp only [List.filter_cons, keptRows, List.filterMap_cons, truthyLine, he]
        simpa [keptRows] using ih
      · simp only [List.filter_cons, keptRows, List.filterMap_cons, truthyLine, he]
        simp only [Bool.not_false, if_true, List.map_cons]
        exact congrArg _ (by simpa [keptRows] using ih)

/-- The row loop of `writeFilePosition` renders exactly the kept rows,
for any fixed padding width. -/
theorem filterMap_rows_eq_keptRows (lnObj : List (Int × Option (List Char)))
    (pos : FilePos) (longest : Nat) :
    lnObj.filterMap (fun kv =>
      match kv.2 with
      | none => none
      | some l => if l.isEmpty then none else some (renderRow pos longest kv.1 l)) =
      (keptRows lnObj).map (fun kv => renderRow pos longest kv.1 kv.2) := by
  induction lnObj with
  | nil => rfl
  | cons kv rest ih =>
    rcases kv with ⟨k, v⟩
    cases v with
    | none =>
      simp only [List.filterMap_cons, keptRows]
      simpa [keptRows] using ih
    | some l =>
      by_cases he : l.isEmpty = true
      · simp only [List.filterMap_cons, keptRows, he, if_true]
        simpa [keptRows] using ih
      · simp only [List.filterMap_cons, keptRows, he, Bool.false_eq_true, if_false,
          List.map_cons]
        exact congrArg _ (by simpa [keptRows] using ih)

/-- C8 counterexample: in the file `["a", "", "c"]` with the target at
line 2 — a mid-file position, no boundary involved — the code omits the
target row entirely because its content is the empty string
(JavaScript-falsy), rendering a 2-row window, while the claim's window
(`snippetClaim`, which omits only absent neighbours) has all 3 rows
including `2 | `. -/
theorem claim_C8_counterexample :
    writeFilePosition (lnObject [s2l "a", s2l "", s2l "c"] ⟨2, none⟩) ⟨2, none⟩ =
      some [s2l "1 | a", s2l "3 | c"] ∧
    snippetClaim [s2l "a", s2l "", s2l "c"] ⟨2, none⟩ =
      [s2l "1 | a", s2l "2 | ", s2l "3 | c"] := by
  constructor
  · decide
  · decide

/-- C8 amended: the rendered window consists of the rows of the target
line and its one-before and one-after neighbours that exist in the file
and have non-empty content — an absent neighbour at a file boundary and
equally any empty-content row is omitted rather than rendered blank —
each prefixed with its 1-based line number right-aligned to the width of
the longest line number among the rendered rows; when no row at all
survives, the renderer throws (`none`) instead of rendering an empty
window.  Stated as: the code's `writeFilePosition` on the `ln` object
agrees everywhere with the independently worded `snippetAmended`. -/
theorem claim_C8_amended (ls : List (List Char)) (pos : FilePos) :
    writeFilePosition (lnObject ls pos) pos = snippetAmended ls pos := by
  have hkept : ((lnKeys pos).filterMap (fun k =>
      match lineAtI ls k with
      | none => none
      | some l => if l.isEmpty then none else some (k, l))) =
      keptRows (lnObject ls pos) := by
    rw [keptRows, lnObject, List.filterMap_map]
    rfl
  rw [writeFilePosition, snippetAmended]
  simp only []
  rw [hkept]
  rw [filter_truthy_eq_keptRows, List.map_map]
  have hcomp : ((fun kv : Int × Option (List Char) => (intToChars (kv.1 + 1)).length) ∘
      (fun kv : Int × List Char => (kv.1, some kv.2))) =
      (fun kv : Int × List Char => (intToChars (kv.1 + 1)).length) := by
    funext kv
    rfl
  rw [hcomp]
  cases hk : keptRows (lnObject ls pos) with
  | nil => simp
  | cons kv rest =>
    simp only [List.map_cons, Function.comp]
    rw [filterMap_rows_eq_keptRows, hk]
    simp only [List.map_cons, List.foldl_cons, Nat.zero_max]

/-- C9: for a non-timed-out failure, whatever the structural-shape
oracle (`should-type`) and canonical renderer (`should-format`) do:
when actual and expected have the same shape and actual is not a string,
the diff renderer receives the canonicalized texts of both (never the
raw values) with escaping off, and no diff is rendered when those texts
agree; two raw strings that differ are diffed without conversion (with
escaping on); and equal actual/expected strings produce no diff. -/
theorem claim_C9_diff_decision (sameT : JsVal → JsVal → Bool)
    (strf : JsVal → List Char) :
    (∀ a e : JsVal, sameT a e = true → typeofIsString a = false →
      diffDecision sameT strf false a e =
        if strf a = strf e then none else some (strf a, strf e, false)) ∧
    (∀ s t : List Char, ¬ s = t →
      diffDecision sameT strf false (.vstr s) (.vstr t) = some (s, t, true)) ∧
    (∀ s : List Char, diffDecision sameT strf false (.vstr s) (.vstr s) = none) := by
  refine ⟨?_, ?_, ?_⟩
  · intro a e h1 h2
    simp [diffDecision, h1, h2]
  · intro s t h
    simp [diffDecision, typeofIsString, h]
  · intro s
    simp [diffDecision, typeofIsString]

/-- C9 witness: the three parts at concrete values, with `sameTypeNum`
and `stringifyNum` standing in for the external oracles. -/
theorem claim_C9_witness :
    diffDecision sameTypeNum stringifyNum false (.vnum 1) (.vnum 2) =
      some (s2l "1", s2l "2", false) ∧
    diffDecision sameTypeNum stringifyNum false (.vstr (s2l "a")) (.vstr (s2l "b")) =
      some (s2l "a", s2l "b", true) ∧
    diffDecision sameTypeNum stringifyNum false (.vstr (s2l "a")) (.vstr (s2l "a")) =
      none := by
  refine ⟨?_, ?_, ?_⟩
  · exact ((claim_C9_diff_decision sameTypeNum stringifyNum).1 (.vnum 1) (.vnum 2)
      rfl rfl).trans (by decide)
  · exact (claim_C9_diff_decision sameTypeNum stringifyNum).2.1 (s2l "a") (s2l "b")
      (by decide)
  · exact (claim_C9_diff_decision sameTypeNum stringifyNum).2.2 (s2l "a")

end MochaReporter
